import Mathlib

/-!
Verification of the protobuf container-file machinery in
`src/kudu/util/pb_util.cc` (kudu `pb_util` namespace).

Bytes are modelled as `Nat` values (< 256 whenever they originate from a
real file); byte buffers and files are `List Nat`.  Machine integers are
`Nat` with explicit `% 2^32` where 32-bit overflow matters.  External
collaborators that are part of the repository but not under `src/`
(the CRC32C library `kudu/util/crc`, `strings::Substitute` and
`Utf8SafeCEscape` from gutil, and the `Env` filesystem layer) are
modelled from the spec, each marked in its doc comment.
-/

namespace Kudu

/-! ## Constants (pb_util.cc lines 50-58) -/

def kPBContainerVersion : Nat := 1

def kPBContainerMagicLen : Nat := 8

def kPBContainerHeaderLen : Nat := kPBContainerMagicLen + 4

def kPBContainerChecksumLen : Nat := 4

def kTmpTemplateSuffix : String := ".tmp.XXXXXX"

/-! ## Fixed 32-bit little-endian encoding (kudu/util/coding: InlineEncodeFixed32 /
DecodeFixed32).  `encodeFixed32` keeps only the low 32 bits of its argument,
matching the `uint32_t` parameter type. -/

def encodeFixed32 (v : Nat) : List Nat :=
  [v % 256, v / 256 % 256, v / 65536 % 256, v / 16777216 % 256]

def decodeFixed32 (bs : List Nat) : Nat :=
  bs.getD 0 0 + bs.getD 1 0 * 256 + bs.getD 2 0 * 65536 + bs.getD 3 0 * 16777216

theorem length_encodeFixed32 (v : Nat) : (encodeFixed32 v).length = 4 := rfl

theorem decodeFixed32_encodeFixed32 (v : Nat) :
    decodeFixed32 (encodeFixed32 v) = v % 4294967296 := by
  simp only [encodeFixed32, decodeFixed32, List.getD_cons_zero, List.getD_cons_succ]
  omega

theorem decodeFixed32_encodeFixed32_of_lt {v : Nat} (h : v < 4294967296) :
    decodeFixed32 (encodeFixed32 v) = v := by
  rw [decodeFixed32_encodeFixed32, Nat.mod_eq_of_lt h]

/-! ## CRC32C.
Modelled from the spec: the CRC32C checksum collaborator (`kudu/util/crc`,
not under `src/`); "CRC32C: a 32-bit cyclic-redundancy-check variant
(Castagnoli polynomial)".  Standard reflected bitwise implementation:
initial value `0xFFFFFFFF`, reflected polynomial `0x82F63B78`, final
complement.  Each input byte is reduced `% 256`, matching the `uint8_t`
input type of the library. -/

def crc32cStepBit (c : Nat) : Nat :=
  if c % 2 = 1 then (c / 2) ^^^ 0x82F63B78 else c / 2

def crc32cBits : Nat → Nat → Nat
  | 0, c => c
  | n + 1, c => crc32cBits n (crc32cStepBit c)

def crc32cByte (c b : Nat) : Nat :=
  crc32cBits 8 (c ^^^ b % 256)

def crc32c (bs : List Nat) : Nat :=
  (bs.foldl crc32cByte 0xFFFFFFFF) ^^^ 0xFFFFFFFF

theorem crc32cStepBit_lt {c : Nat} (h : c < 4294967296) :
    crc32cStepBit c < 4294967296 := by
  unfold crc32cStepBit
  split
  · have h1 : c / 2 < 2 ^ 32 := by omega
    have h2 : 0x82F63B78 < 2 ^ 32 := by norm_num
    have := Nat.xor_lt_two_pow h1 h2
    simpa using this
  · omega

theorem crc32cBits_lt {n : Nat} {c : Nat} (h : c < 4294967296) :
    crc32cBits n c < 4294967296 := by
  induction n generalizing c with
  | zero => exact h
  | succ n ih => exact ih (crc32cStepBit_lt h)

theorem crc32cByte_lt {c : Nat} (b : Nat) (h : c < 4294967296) :
    crc32cByte c b < 4294967296 := by
  unfold crc32cByte
  apply crc32cBits_lt
  have h1 : c < 2 ^ 32 := by omega
  have h2 : b % 256 < 2 ^ 32 := by omega
  have := Nat.xor_lt_two_pow h1 h2
  omega

theorem crc32c_lt (bs : List Nat) : crc32c bs < 4294967296 := by
  unfold crc32c
  have hfold : ∀ (l : List Nat) (c : Nat), c < 4294967296 →
      l.foldl crc32cByte c < 4294967296 := by
    intro l
    induction l with
    | nil => intro c hc; simpa using hc
    | cons b rest ih =>
        intro c hc
        simpa using ih (crc32cByte c b) (crc32cByte_lt b hc)
  have h1 : bs.foldl crc32cByte 0xFFFFFFFF < 2 ^ 32 := by
    have := hfold bs 0xFFFFFFFF (by norm_num)
    omega
  have h2 : (0xFFFFFFFF : Nat) < 2 ^ 32 := by norm_num
  have := Nat.xor_lt_two_pow h1 h2
  omega

/-! ## strings::Substitute.
Modelled from the spec: the `strings::Substitute` template helper from
`gutil/strings/substitute` (not under `src/`): each `$N` (N a digit) in the
template is replaced by the N-th positional argument; `$$` produces a
literal `$`. -/

def substituteChars : List Char → List String → List Char
  | [], _ => []
  | c :: rest, args =>
    if c = '$' then
      match rest with
      | [] => ['$']
      | d :: rest2 =>
        if '0' ≤ d ∧ d ≤ '9' then
          (args.getD (d.toNat - 48) "").data ++ substituteChars rest2 args
        else if d = '$' then
          '$' :: substituteChars rest2 args
        else
          '$' :: d :: substituteChars rest2 args
    else
      c :: substituteChars rest args

def substitute (tmpl : String) (args : List String) : String :=
  ⟨substituteChars tmpl.data args⟩

/-! ## Utf8SafeCEscape.
Modelled from the spec: `strings::Utf8SafeCEscape` from
`gutil/strings/escaping` (not under `src/`); the spec says only that both
magic values appear in the error message "escaped for safe display".
Printable ASCII characters other than quote and backslash map to
themselves; everything else becomes a three-digit octal escape. -/

def cEscapeByte (b : Nat) : List Char :=
  if 32 ≤ b ∧ b < 127 ∧ b ≠ 34 ∧ b ≠ 39 ∧ b ≠ 92 then
    [Char.ofNat b]
  else
    ['\\', Char.ofNat (48 + b / 64 % 8), Char.ofNat (48 + b / 8 % 8),
     Char.ofNat (48 + b % 8)]

def utf8SafeCEscape (bs : List Nat) : String :=
  ⟨(bs.map cEscapeByte).flatten⟩

/-! ## Status (kudu/util/status).
Modelled from the spec taxonomy (§7): Corruption, NotSupported, EndOfFile,
IOError, plus OK.  A kudu `Status` built from two message slices stores
`msg: msg2`; `CloneAndPrepend` prepends `context: ` to the stored
message. -/

inductive StatusCode
  | Ok
  | Corruption
  | NotSupported
  | EndOfFile
  | IOError
  deriving DecidableEq, Repr

structure Status where
  code : StatusCode
  msg : String
  deriving DecidableEq, Repr

def combineMsg (m m2 : String) : String :=
  if m2 = "" then m else m ++ ": " ++ m2

def Status.OK : Status := ⟨StatusCode.Ok, ""⟩

def Status.corruption (m m2 : String) : Status := ⟨StatusCode.Corruption, combineMsg m m2⟩

def Status.notSupported (m : String) : Status := ⟨StatusCode.NotSupported, m⟩

def Status.endOfFile (m : String) : Status := ⟨StatusCode.EndOfFile, m⟩

def Status.ioError (m m2 : String) : Status := ⟨StatusCode.IOError, combineMsg m m2⟩

def Status.cloneAndPrepend (s : Status) (m : String) : Status :=
  ⟨s.code, m ++ ": " ++ s.msg⟩

theorem cloneAndPrepend_code (s : Status) (m : String) :
    (s.cloneAndPrepend m).code = s.code := rfl

/-! ## Protobuf messages (the encoding collaborator).
A `google::protobuf::MessageLite` is modelled by what the container code
observes of it: the value returned by `ByteSize()` the first time it is
called, the value a second `ByteSize()` call would return (these differ
only if the message is mutated concurrently), the byte buffer produced by
`SerializeWithCachedSizesToArray` (`none` models the serializer signalling
failure by returning a null pointer), and `IsInitialized()`. -/

structure PBMessage where
  byteSizeBefore : Nat
  byteSizeAfter : Nat
  serialized : Option (List Nat)
  initialized : Bool
  deriving DecidableEq, Repr

/-- A message that behaves the way an unmolested protobuf message does:
re-measuring gives the same size and serialization produces exactly
`ByteSize()` bytes. -/
def PBMessage.wellFormed (m : PBMessage) : Bool :=
  match m.serialized with
  | none => false
  | some bs => bs.length == m.byteSizeBefore && m.byteSizeAfter == m.byteSizeBefore

/-- The bytes `SerializeWithCachedSizesToArray` wrote (empty when the
serializer failed). -/
def PBMessage.payload (m : PBMessage) : List Nat :=
  m.serialized.getD []

/-- Overwrite `data` into `buf` starting at position `pos`; bytes falling
outside the buffer are dropped (a C++ write past the region is undefined
behaviour; no claim depends on that case). -/
def writeAt (buf : List Nat) (pos : Nat) (data : List Nat) : List Nat :=
  buf.take pos ++ data.take (buf.length - pos) ++ buf.drop (pos + data.length)

theorem writeAt_fill {a : Nat} (data : List Nat) (pad : Nat)
    (h : data.length = a) :
    writeAt (List.replicate (a + pad) 0) 0 data =
      data ++ List.replicate pad 0 := by
  unfold writeAt
  simp only [List.take_zero, List.nil_append, List.length_replicate, Nat.sub_zero,
    Nat.zero_add, List.drop_replicate]
  rw [List.take_of_length_le (by omega)]
  have h2 : a + pad - data.length = pad := by omega
  rw [h2]

theorem writeAt_append {pre : List Nat} {pos : Nat} (data rest : List Nat)
    (hpos : pre.length = pos) (h : data.length ≤ rest.length) :
    writeAt (pre ++ rest) pos data =
      pre ++ data ++ rest.drop data.length := by
  unfold writeAt
  rw [List.take_left' hpos, List.length_append, hpos]
  have h1 : data.take (pos + rest.length - pos) = data :=
    List.take_of_length_le (by omega)
  have h2 : (pre ++ rest).drop (pos + data.length) = rest.drop data.length := by
    have : pos + data.length = pre.length + data.length := by omega
    rw [this, List.drop_append_eq_append_drop]
    simp
  rw [h1, h2, List.append_assoc]

/-! ## Serialization helpers (pb_util.cc lines 63-128).
The `CHECK`/`LOG(FATAL)` macros abort the process; this is modelled by the
`fatalCrash` result constructor.  `DCHECK` is compiled out of release
builds and is not modelled as an abort. -/

inductive StringAppendResult
  | ok (output : List Nat)
  | fatalCrash (message : String)
  deriving DecidableEq, Repr

/-- pb_util.cc lines 71-81.  Every path through this function aborts the
process (two `CHECK_EQ`s and a `LOG(FATAL)`). -/
def ByteSizeConsistencyError (byte_size_before byte_size_after
    bytes_produced : Nat) : StringAppendResult :=
  if byte_size_before ≠ byte_size_after then
    .fatalCrash "Protocol message was modified concurrently during serialization."
  else if bytes_produced ≠ byte_size_before then
    .fatalCrash "Byte size calculation and serialization were inconsistent.  This may indicate a bug in protocol buffers or it may be caused by concurrent modification of the message."
  else
    .fatalCrash "This should not be called if all the sizes are equal."

/-- pb_util.cc lines 111-123: resize `output` by `ByteSize()`, serialize in
place, and abort via `ByteSizeConsistencyError` if the serializer produced
a different number of bytes than measured. -/
def AppendPartialToString (m : PBMessage) (output : List Nat) :
    StringAppendResult :=
  let old_size := output.length
  let byte_size := m.byteSizeBefore
  let grown := output ++ List.replicate byte_size 0
  let produced := m.payload
  if produced.length ≠ byte_size then
    ByteSizeConsistencyError byte_size m.byteSizeAfter produced.length
  else
    .ok (writeAt grown old_size produced)

/-- pb_util.cc lines 106-109 (the `DCHECK(IsInitialized)` is debug-only). -/
def AppendToString (m : PBMessage) (output : List Nat) : StringAppendResult :=
  AppendPartialToString m output

def StringAppendResult.isFatalCrash : StringAppendResult → Bool
  | .fatalCrash _ => true
  | _ => false

/-! ## WritablePBContainerFile (pb_util.cc lines 226-317).
The underlying `WritableFile` is modelled by the byte list accumulated so
far; `writer_->Append` failures are injected at the path level (§ Env
below), so the in-memory serialization logic here is exact. -/

inductive AppendResult
  | ok (fileBytes : List Nat)
  | err (status : Status)
  | fatalCrash (message : String)
  deriving DecidableEq, Repr

def AppendResult.isOk : AppendResult → Bool
  | .ok _ => true
  | _ => false

def AppendResult.isFatalCrash : AppendResult → Bool
  | .fatalCrash _ => true
  | _ => false

/-- pb_util.cc lines 235-258: append `magic || fixed32(version)` to the
file.  (`DCHECK`s on `closed_`, the magic length and the serialized byte
count are debug-only.) -/
def WritablePBContainerFile.Init (magic : List Nat) (fileBytes : List Nat) :
    List Nat :=
  fileBytes ++ magic ++ encodeFixed32 kPBContainerVersion

/-- pb_util.cc lines 260-290: build the frame buffer
`fixed32(ByteSize()) || serialized bytes || fixed32(crc32c(prefix))` and
append it to the file.  The serializer returning null yields
`Status::IOError`; there is no byte-count consistency check on this path.
The fresh `faststring` buffer's bytes are modelled as zero (the C++ leaves
them uninitialized; no claim depends on filler bytes). -/
def WritablePBContainerFile.Append (msg : PBMessage) (fileBytes : List Nat) :
    AppendResult :=
  let data_size := msg.byteSizeBefore
  let bufsize := 4 + data_size + kPBContainerChecksumLen
  let buf0 := List.replicate bufsize 0
  let buf1 := writeAt buf0 0 (encodeFixed32 data_size)
  match msg.serialized with
  | none => .err (Status.ioError "Failed to serialize PB to array" "")
  | some data =>
    let buf2 := writeAt buf1 4 data
    let checksum := crc32c (buf2.take (4 + data_size))
    let buf3 := writeAt buf2 (4 + data_size) (encodeFixed32 checksum)
    .ok (fileBytes ++ buf3)

/-- The frame a well-formed message serializes to (spec §3 "Record
Frame"): `length(4) || payload || checksum(4)` with
`checksum = CRC32C(length_bytes || payload)`. -/
def frameBytes (d : List Nat) : List Nat :=
  encodeFixed32 d.length ++ d ++ encodeFixed32 (crc32c (encodeFixed32 d.length ++ d))

theorem length_frameBytes (d : List Nat) :
    (frameBytes d).length = d.length + 8 := by
  simp [frameBytes, encodeFixed32]

/-- The container file produced by `Init` followed by appends of the given
payloads (spec §3 "Container File"). -/
def containerBytes (magic : List Nat) (payloads : List (List Nat)) : List Nat :=
  magic ++ encodeFixed32 kPBContainerVersion ++ (payloads.map frameBytes).flatten

/-- Unpacking of `PBMessage.wellFormed`. -/
theorem wellFormed_spec {m : PBMessage} (hwf : m.wellFormed = true) :
    ∃ bs, m.serialized = some bs ∧ bs.length = m.byteSizeBefore ∧
      m.byteSizeAfter = m.byteSizeBefore := by
  unfold PBMessage.wellFormed at hwf
  cases hs : m.serialized with
  | none => rw [hs] at hwf; cases hwf
  | some bs =>
    rw [hs] at hwf
    simp only [Bool.and_eq_true, beq_iff_eq] at hwf
    exact ⟨bs, rfl, hwf.1, hwf.2⟩

/-- `Append` on a well-formed message appends exactly the frame of its
payload. -/
theorem Append_wellFormed {m : PBMessage} (hwf : m.wellFormed = true)
    (fileBytes : List Nat) :
    WritablePBContainerFile.Append m fileBytes =
      .ok (fileBytes ++ frameBytes m.payload) := by
  obtain ⟨data, hs, hlen, _⟩ := wellFormed_spec hwf
  have hpay : m.payload = data := by simp [PBMessage.payload, hs]
  rw [hpay]
  simp only [WritablePBContainerFile.Append, hs]
  rw [← hlen]
  have e1 : 4 + data.length + kPBContainerChecksumLen = 4 + (data.length + 4) := by
    unfold kPBContainerChecksumLen
    omega
  rw [e1, writeAt_fill _ _ (length_encodeFixed32 _)]
  rw [writeAt_append data (List.replicate (data.length + 4) 0) (length_encodeFixed32 _)
    (by rw [List.length_replicate]; omega)]
  rw [List.drop_replicate]
  have e2 : data.length + 4 - data.length = 4 := by omega
  rw [e2]
  have htake : ((encodeFixed32 data.length ++ data) ++ List.replicate 4 0).take
      (4 + data.length) = encodeFixed32 data.length ++ data :=
    List.take_left' (by rw [List.length_append, length_encodeFixed32])
  rw [List.append_assoc, ← List.append_assoc, htake]
  rw [writeAt_append (encodeFixed32 (crc32c (encodeFixed32 data.length ++ data)))
    (List.replicate 4 0)
    (by rw [List.length_append, length_encodeFixed32])
    (by rw [List.length_replicate, length_encodeFixed32])]
  rw [length_encodeFixed32, List.drop_replicate]
  simp [frameBytes]

/-- Sequence of `Append` calls, stopping at the first failure
(`RETURN_NOT_OK` semantics at the call sites). -/
def appendMany (msgs : List PBMessage) (fileBytes : List Nat) : AppendResult :=
  match msgs with
  | [] => .ok fileBytes
  | m :: rest =>
    match WritablePBContainerFile.Append m fileBytes with
    | .ok f2 => appendMany rest f2
    | r => r

theorem appendMany_wellFormed {msgs : List PBMessage}
    (hwf : ∀ m ∈ msgs, m.wellFormed = true) (fileBytes : List Nat) :
    appendMany msgs fileBytes =
      .ok (fileBytes ++ (msgs.map (fun m => frameBytes m.payload)).flatten) := by
  induction msgs generalizing fileBytes with
  | nil => simp [appendMany]
  | cons m rest ih =>
    unfold appendMany
    rw [Append_wellFormed (hwf m (by simp)) fileBytes]
    simp only
    rw [ih (fun x hx => hwf x (by simp [hx]))]
    simp

/-! ## ReadablePBContainerFile (pb_util.cc lines 319-450).
The open `RandomAccessFile` is modelled by its byte contents plus the
path string returned by `reader_->ToString()`; `offset_` is the read
cursor.  An in-bounds `Read` on a `RandomAccessFile` returns exactly the
requested bytes, so the short-read branch of `ValidateAndRead` is kept
but unreachable in the model. -/

structure ReaderState where
  path : String
  file : List Nat
  offset : Nat
  deriving DecidableEq, Repr

inductive EofOK
  | EOF_OK
  | EOF_NOT_OK
  deriving DecidableEq, Repr

/-- pb_util.cc lines 413-450.  Note on the `EOF_NOT_OK` branch: the C++
format string is `"Proto container file $0: tried to read $0 bytes at
offset $1 but file size is only $2"` applied to the four arguments
`(ToString(), length, offset_, file_size)` — `$0` appears twice and `$3`
never, exactly as in the source. -/
def ValidateAndRead (st : ReaderState) (length : Nat) (eofOK : EofOK) :
    Except Status (List Nat) × ReaderState :=
  let file_size := st.file.length
  if st.offset + length > file_size then
    match eofOK with
    | .EOF_OK => (.error (Status.endOfFile "Reached end of file"), st)
    | .EOF_NOT_OK =>
      (.error (Status.corruption "File size not large enough to be valid"
        (substitute "Proto container file $0: tried to read $0 bytes at offset $1 but file size is only $2"
          [st.path, toString length, toString st.offset, toString file_size])), st)
  else
    let s := (st.file.drop st.offset).take length
    if s.length < length then
      (.error (Status.corruption "Unexpected short read"
        (substitute "Proto container file $0: tried to read $1 bytes; got $2 bytes"
          [st.path, toString length, toString s.length])), st)
    else
      (.ok s, { st with offset := st.offset + s.length })

/-- pb_util.cc lines 328-357: read and validate the 12-byte header.
(The `DCHECK` on the magic length is debug-only.) -/
def ReadablePBContainerFile.Init (magic : List Nat) (st : ReaderState) :
    Status × ReaderState :=
  match ValidateAndRead st kPBContainerHeaderLen .EOF_NOT_OK with
  | (.error s, st1) =>
    (s.cloneAndPrepend
      (substitute "Could not read header for proto container file $0" [st.path]), st1)
  | (.ok header, st1) =>
    if header.take kPBContainerMagicLen ≠ magic then
      (Status.corruption "Invalid magic number"
        (substitute "Expected: $0, found: $1"
          [utf8SafeCEscape magic, utf8SafeCEscape (header.take kPBContainerMagicLen)]), st1)
    else
      let version := decodeFixed32 (header.drop kPBContainerMagicLen)
      if version ≠ kPBContainerVersion then
        (Status.notSupported
          (substitute "Protobuf container has version $0, we only support version $1"
            [toString version, toString kPBContainerVersion]), st1)
      else
        (Status.OK, st1)

/-- pb_util.cc lines 359-405: three bounded reads (length, body, checksum),
CRC32C validation over `size || body` (the rolling `Compute` over the two
slices equals the CRC of their concatenation), then decode.  The decode
collaborator (`MessageLite::ParseFromArray`) is passed in as the `parse`
predicate; on success the payload bytes decoded into the caller's message
are returned. -/
def ReadablePBContainerFile.ReadNextPB (parse : List Nat → Bool)
    (st : ReaderState) : Status × Option (List Nat) × ReaderState :=
  match ValidateAndRead st 4 .EOF_OK with
  | (.error s, st1) =>
    (s.cloneAndPrepend
      (substitute "Could not read data size from proto container file $0" [st.path]),
     none, st1)
  | (.ok size, st1) =>
    let data_size := decodeFixed32 size
    match ValidateAndRead st1 data_size .EOF_NOT_OK with
    | (.error s, st2) =>
      (s.cloneAndPrepend
        (substitute "Could not read body from proto container file $0" [st.path]),
       none, st2)
    | (.ok body, st2) =>
      match ValidateAndRead st2 kPBContainerChecksumLen .EOF_NOT_OK with
      | (.error s, st3) =>
        (s.cloneAndPrepend
          (substitute "Could not read checksum from proto container file $0" [st.path]),
         none, st3)
      | (.ok encoded_checksum, st3) =>
        let expected_checksum := decodeFixed32 encoded_checksum
        let actual_checksum := crc32c (size ++ body)
        if actual_checksum ≠ expected_checksum then
          (Status.corruption
            (substitute "Incorrect checksum of file $0: actually $1, expected $2"
              [st.path, toString actual_checksum, toString expected_checksum]) "",
           none, st3)
        else if ¬ parse body then
          (Status.ioError "Unable to parse PB from path" st.path, none, st3)
        else
          (Status.OK, some body, st3)

/-- pb_util.cc lines 407-411: releases the reader and always returns OK. -/
def ReadablePBContainerFile.Close : Status := Status.OK

/-- Drive `ReadNextPB` a fixed number of times, threading the reader
state, and collect the (status, decoded payload) pairs. -/
def readMany (parse : List Nat → Bool) (st : ReaderState) :
    Nat → List (Status × Option (List Nat))
  | 0 => []
  | k + 1 =>
    match ReadablePBContainerFile.ReadNextPB parse st with
    | (s, p, st2) => (s, p) :: readMany parse st2 k

/-- pb_util.cc lines 453-462: open the file, `Init`, one `ReadNextPB`,
`Close`.  (`NewRandomAccessFile` success is modelled by the file contents
being supplied.) -/
def ReadPBContainerFromPath (parse : List Nat → Bool) (path : String)
    (file : List Nat) (magic : List Nat) : Status × Option (List Nat) :=
  let st0 : ReaderState := ⟨path, file, 0⟩
  match ReadablePBContainerFile.Init magic st0 with
  | (s, st1) =>
    if s.code ≠ StatusCode.Ok then (s, none)
    else
      match ReadablePBContainerFile.ReadNextPB parse st1 with
      | (s2, p, _) =>
        if s2.code ≠ StatusCode.Ok then (s2, none)
        else (ReadablePBContainerFile.Close, p)

/-! ### ValidateAndRead behaviour lemmas -/

theorem ValidateAndRead_ok {st : ReaderState} {length : Nat} (eofOK : EofOK)
    (h : st.offset + length ≤ st.file.length) :
    ValidateAndRead st length eofOK =
      (.ok ((st.file.drop st.offset).take length),
       ⟨st.path, st.file, st.offset + length⟩) := by
  unfold ValidateAndRead
  have hnot : ¬ (st.offset + length > st.file.length) := by omega
  rw [if_neg hnot]
  have hs : ((st.file.drop st.offset).take length).length = length := by
    rw [List.length_take, List.length_drop]
    omega
  simp only [hs, Nat.lt_irrefl, if_false]

theorem ValidateAndRead_eof {st : ReaderState} {length : Nat}
    (h : st.offset + length > st.file.length) :
    ValidateAndRead st length .EOF_OK =
      (.error (Status.endOfFile "Reached end of file"), st) := by
  unfold ValidateAndRead
  rw [if_pos h]

theorem ValidateAndRead_shortfall {st : ReaderState} {length : Nat}
    (h : st.offset + length > st.file.length) :
    ValidateAndRead st length .EOF_NOT_OK =
      (.error (Status.corruption "File size not large enough to be valid"
        (substitute "Proto container file $0: tried to read $0 bytes at offset $1 but file size is only $2"
          [st.path, toString length, toString st.offset, toString st.file.length])), st) := by
  unfold ValidateAndRead
  rw [if_pos h]

/-! ### ReadNextPB behaviour lemmas -/

/-- With fewer than 4 bytes left at the cursor, `ReadNextPB` reports the
clean end-of-container signal. -/
theorem ReadNextPB_eof (parse : List Nat → Bool) {st : ReaderState}
    (h : st.file.length < st.offset + 4) :
    ReadablePBContainerFile.ReadNextPB parse st =
      ((Status.endOfFile "Reached end of file").cloneAndPrepend
        (substitute "Could not read data size from proto container file $0" [st.path]),
       none, st) := by
  unfold ReadablePBContainerFile.ReadNextPB
  rw [ValidateAndRead_eof (by omega)]

/-- Reading a complete, intact frame whose payload parses: returns OK, the
payload, and advances the cursor past the frame. -/
theorem ReadNextPB_frame {parse : List Nat → Bool} {path : String}
    {pre d suf : List Nat} (hlt : d.length < 4294967296)
    (hp : parse d = true) :
    ReadablePBContainerFile.ReadNextPB parse
        ⟨path, pre ++ frameBytes d ++ suf, pre.length⟩ =
      (Status.OK, some d,
       ⟨path, pre ++ frameBytes d ++ suf, pre.length + (d.length + 8)⟩) := by
  set cc := encodeFixed32 (crc32c (encodeFixed32 d.length ++ d)) with hcc
  have hfile : pre ++ frameBytes d ++ suf =
      pre ++ (encodeFixed32 d.length ++ (d ++ (cc ++ suf))) := by
    simp [frameBytes, hcc]
  have hlen : (pre ++ frameBytes d ++ suf).length =
      pre.length + (d.length + 8) + suf.length := by
    simp [length_frameBytes]
    omega
  unfold ReadablePBContainerFile.ReadNextPB
  rw [ValidateAndRead_ok .EOF_OK
    (by show pre.length + 4 ≤ (pre ++ frameBytes d ++ suf).length
        rw [hlen]; omega)]
  simp only
  have hdrop1 : ((pre ++ frameBytes d ++ suf).drop pre.length).take 4 =
      encodeFixed32 d.length := by
    rw [hfile, List.drop_left, List.take_left' (length_encodeFixed32 _)]
  rw [hdrop1]
  rw [decodeFixed32_encodeFixed32_of_lt hlt]
  rw [ValidateAndRead_ok .EOF_NOT_OK
    (by show pre.length + 4 + d.length ≤ (pre ++ frameBytes d ++ suf).length
        rw [hlen]; omega)]
  simp only
  have hdrop2 : ((pre ++ frameBytes d ++ suf).drop (pre.length + 4)).take d.length
      = d := by
    have h2 : pre ++ frameBytes d ++ suf =
        (pre ++ encodeFixed32 d.length) ++ (d ++ (cc ++ suf)) := by
      rw [hfile]; simp
    rw [h2, List.drop_left' (by rw [List.length_append, length_encodeFixed32]),
      List.take_left' rfl]
  rw [hdrop2]
  rw [ValidateAndRead_ok .EOF_NOT_OK
    (by show pre.length + 4 + d.length + 4 ≤ (pre ++ frameBytes d ++ suf).length
        rw [hlen]; omega)]
  simp only
  have hdrop3 : ((pre ++ frameBytes d ++ suf).drop (pre.length + 4 + d.length)).take
      kPBContainerChecksumLen = cc := by
    have h3 : pre ++ frameBytes d ++ suf =
        (pre ++ encodeFixed32 d.length ++ d) ++ (cc ++ suf) := by
      rw [hfile]; simp
    rw [h3, List.drop_left'
      (by rw [List.length_append, List.length_append, length_encodeFixed32]),
      List.take_left' (by rw [hcc, length_encodeFixed32]; rfl)]
  rw [hdrop3, hcc]
  rw [decodeFixed32_encodeFixed32_of_lt (crc32c_lt _)]
  simp only [ne_eq, not_true_eq_false, if_false, hp, Bool.not_true,
    Bool.false_eq_true, if_true]
  have hoff : pre.length + 4 + d.length + kPBContainerChecksumLen =
      pre.length + (d.length + 8) := by
    unfold kPBContainerChecksumLen; omega
  rw [hoff]

/-- Sequentially reading a container whose remaining contents are exactly
the frames of `ds`: each payload is returned OK in order, and the next
read reports EndOfFile. -/
theorem readMany_frames (parse : List Nat → Bool) (path : String)
    (pre : List Nat) (ds : List (List Nat))
    (hlt : ∀ d ∈ ds, d.length < 4294967296)
    (hp : ∀ d ∈ ds, parse d = true) :
    (readMany parse ⟨path, pre ++ (ds.map frameBytes).flatten, pre.length⟩
        (ds.length + 1)).map (fun r => (r.1.code, r.2)) =
      ds.map (fun d => (StatusCode.Ok, some d)) ++
        [(StatusCode.EndOfFile, none)] := by
  induction ds generalizing pre with
  | nil =>
    unfold readMany
    rw [ReadNextPB_eof parse (by simp)]
    unfold readMany
    simp [cloneAndPrepend_code, Status.endOfFile]
  | cons d rest ih =>
    have hfile : pre ++ ((d :: rest).map frameBytes).flatten =
        pre ++ frameBytes d ++ (rest.map frameBytes).flatten := by
      simp
    unfold readMany
    rw [hfile, ReadNextPB_frame (hlt d (by simp)) (hp d (by simp))]
    simp only [List.map_cons, List.length_cons]
    have hpre2 : pre.length + (d.length + 8) = (pre ++ frameBytes d).length := by
      rw [List.length_append, length_frameBytes]
    have hfile2 : pre ++ frameBytes d ++ (rest.map frameBytes).flatten =
        (pre ++ frameBytes d) ++ (rest.map frameBytes).flatten := by
      simp
    rw [hpre2, hfile2,
      ih (pre ++ frameBytes d) (fun x hx => hlt x (by simp [hx]))
        (fun x hx => hp x (by simp [hx]))]
    simp [Status.OK]

/-! ## Env, temp files and the atomic write protocol
(pb_util.cc lines 142-168 `WritePBToPath` and 464-489
`WritePBContainerToPath`).
Modelled from the spec (§4.5, §6): the `Env` filesystem collaborator and
`env_util::ScopedFileDeleter` are repository code not under `src/`.  The
filesystem is a map from paths to contents; each fallible `Env`/file
operation's success is injected through an `EnvBehavior` record;
`RenameFile` atomically replaces the target with the source and removes
the source; `ScopedFileDeleter` deletes its path at scope exit unless
`Cancel()` was called.  Statuses of failed collaborator operations are
modelled generically as IOError (the claims inspect only which step
failed and the resulting filesystem). -/

def FS : Type := String → Option (List Nat)

def fsUpdate (fs : FS) (p : String) (v : Option (List Nat)) : FS :=
  fun q => if q = p then v else fs q

inductive SyncMode
  | SYNC
  | NO_SYNC
  deriving DecidableEq, Repr

structure EnvBehavior where
  newTempOk : Bool
  writeOk : Bool
  initAppendOk : Bool
  dataAppendOk : Bool
  syncOk : Bool
  closeOk : Bool
  renameOk : Bool
  syncDirOk : Bool
  deriving DecidableEq, Repr

/-- The unique temp path produced from the `path + ".tmp.XXXXXX"` template
(the random suffix is modelled by a fixed digit string). -/
def tmpPathOf (path : String) : String := path ++ ".tmp.123456"

structure PathWriteResult where
  status : Status
  fs : FS
  deleterFired : Bool

/-- pb_util.cc lines 142-168: serialize `msg` to a temp file next to
`path`, optionally sync, close, rename onto `path`, cancel the scoped
deleter, optionally sync the directory. -/
def WritePBToPath (b : EnvBehavior) (fs : FS) (path : String)
    (msg : PBMessage) (sync : SyncMode) : PathWriteResult :=
  let tmp_path := tmpPathOf path
  if ¬ b.newTempOk then
    ⟨Status.ioError "NewTempWritableFile failed" "", fs, false⟩
  else
    let fs1 := fsUpdate fs tmp_path (some [])
    match msg.serialized with
    | none =>
      ⟨Status.ioError "Unable to serialize PB to file" "",
       fsUpdate fs1 tmp_path none, true⟩
    | some bytes =>
      if ¬ b.writeOk then
        ⟨Status.ioError "Unable to serialize PB to file" "",
         fsUpdate fs1 tmp_path none, true⟩
      else
        let fs2 := fsUpdate fs1 tmp_path (some bytes)
        if sync = SyncMode.SYNC ∧ ¬ b.syncOk then
          ⟨(Status.ioError "sync error" "").cloneAndPrepend
            ("Failed to Sync() " ++ tmp_path), fsUpdate fs2 tmp_path none, true⟩
        else if ¬ b.closeOk then
          ⟨(Status.ioError "close error" "").cloneAndPrepend
            ("Failed to Close() " ++ tmp_path), fsUpdate fs2 tmp_path none, true⟩
        else if ¬ b.renameOk then
          ⟨(Status.ioError "rename error" "").cloneAndPrepend
            ("Failed to rename tmp file to " ++ path), fsUpdate fs2 tmp_path none, true⟩
        else
          let fs3 := fsUpdate (fsUpdate fs2 tmp_path none) path (some bytes)
          if sync = SyncMode.SYNC ∧ ¬ b.syncDirOk then
            ⟨(Status.ioError "syncdir error" "").cloneAndPrepend
              ("Failed to SyncDir() parent of " ++ path), fs3, false⟩
          else
            ⟨Status.OK, fs3, false⟩

/-- pb_util.cc lines 464-489: same protocol, but the temp file is written
through `WritablePBContainerFile::Init` and `Append`.  The
`AppendResult.fatalCrash` branch of the match is unreachable
(`Append_never_fatal` below) and required only for totality. -/
def WritePBContainerToPath (b : EnvBehavior) (fs : FS) (path : String)
    (magic : List Nat) (msg : PBMessage) (sync : SyncMode) : PathWriteResult :=
  let tmp_path := tmpPathOf path
  if ¬ b.newTempOk then
    ⟨Status.ioError "NewTempWritableFile failed" "", fs, false⟩
  else
    let fs1 := fsUpdate fs tmp_path (some [])
    if ¬ b.initAppendOk then
      ⟨(Status.ioError "append error" "").cloneAndPrepend
        "Failed to Append() header to file", fsUpdate fs1 tmp_path none, true⟩
    else
      let headerContent := WritablePBContainerFile.Init magic []
      let fs2 := fsUpdate fs1 tmp_path (some headerContent)
      match WritablePBContainerFile.Append msg headerContent with
      | .err s => ⟨s, fsUpdate fs2 tmp_path none, true⟩
      | .fatalCrash _ =>
        ⟨Status.ioError "unreachable" "", fsUpdate fs2 tmp_path none, true⟩
      | .ok content =>
        if ¬ b.dataAppendOk then
          ⟨(Status.ioError "append error" "").cloneAndPrepend
            "Failed to Append() data to file", fsUpdate fs2 tmp_path none, true⟩
        else
          let fs3 := fsUpdate fs2 tmp_path (some content)
          if sync = SyncMode.SYNC ∧ ¬ b.syncOk then
            ⟨(Status.ioError "sync error" "").cloneAndPrepend "Failed to Sync() file",
             fsUpdate fs3 tmp_path none, true⟩
          else if ¬ b.closeOk then
            ⟨(Status.ioError "close error" "").cloneAndPrepend "Failed to Close() file",
             fsUpdate fs3 tmp_path none, true⟩
          else if ¬ b.renameOk then
            ⟨(Status.ioError "rename error" "").cloneAndPrepend
              ("Failed to rename tmp file to " ++ path), fsUpdate fs3 tmp_path none, true⟩
          else
            let fs4 := fsUpdate (fsUpdate fs3 tmp_path none) path (some content)
            if sync = SyncMode.SYNC ∧ ¬ b.syncDirOk then
              ⟨(Status.ioError "syncdir error" "").cloneAndPrepend
                ("Failed to SyncDir() parent of " ++ path), fs4, false⟩
            else
              ⟨Status.OK, fs4, false⟩

theorem tmpPathOf_ne (path : String) : tmpPathOf path ≠ path := by
  intro h
  have h2 := congrArg String.length h
  rw [tmpPathOf, String.length_append] at h2
  have h3 : (".tmp.123456" : String).length = 11 := rfl
  omega

/-! ### Template expansions of the concrete `Substitute` calls -/

theorem substitute_expected (a b : String) :
    substitute "Expected: $0, found: $1" [a, b] =
      "Expected: " ++ a ++ ", found: " ++ b := by
  apply String.ext
  simp [substitute, substituteChars, String.data_append]

theorem substitute_checksum (p a b : String) :
    substitute "Incorrect checksum of file $0: actually $1, expected $2" [p, a, b] =
      "Incorrect checksum of file " ++ p ++ ": actually " ++ a ++ ", expected " ++ b := by
  apply String.ext
  simp [substitute, substituteChars, String.data_append]

/-- `Init` on a reader over a file starting with the expected 12-byte
header succeeds and leaves the cursor at 12. -/
theorem Init_valid (path : String) {magic : List Nat} (rest : List Nat)
    (hm : magic.length = 8) :
    ReadablePBContainerFile.Init magic
        ⟨path, magic ++ encodeFixed32 kPBContainerVersion ++ rest, 0⟩ =
      (Status.OK,
       ⟨path, magic ++ encodeFixed32 kPBContainerVersion ++ rest,
        kPBContainerHeaderLen⟩) := by
  have hlen : (magic ++ encodeFixed32 kPBContainerVersion ++ rest).length =
      12 + rest.length := by
    simp [List.length_append, length_encodeFixed32, hm]
    omega
  unfold ReadablePBContainerFile.Init
  rw [ValidateAndRead_ok .EOF_NOT_OK
    (by show 0 + kPBContainerHeaderLen ≤ _
        rw [hlen]
        show 0 + 12 ≤ 12 + rest.length
        omega)]
  simp only
  have hheader : ((magic ++ encodeFixed32 kPBContainerVersion ++ rest).drop 0).take
      kPBContainerHeaderLen = magic ++ encodeFixed32 kPBContainerVersion := by
    rw [List.drop_zero]
    exact List.take_left' (by rw [List.length_append, length_encodeFixed32, hm]; rfl)
  rw [hheader]
  have hmagic : (magic ++ encodeFixed32 kPBContainerVersion).take kPBContainerMagicLen
      = magic := List.take_left' hm
  rw [hmagic]
  simp only [ne_eq, not_true_eq_false, if_false]
  have hver : (magic ++ encodeFixed32 kPBContainerVersion).drop kPBContainerMagicLen
      = encodeFixed32 kPBContainerVersion := List.drop_left' hm
  rw [hver, decodeFixed32_encodeFixed32_of_lt (by norm_num [kPBContainerVersion])]
  simp [Nat.zero_add]

/-! ## Claim theorems -/

set_option maxRecDepth 100000 in
/-- C5: writing a container with magic `"kudukudu"`, version 1, and one
record whose payload is the 5 bytes `"hello"` produces exactly
`6B7564756B756475` (magic), `01000000` (version), `05000000` (length),
`68656C6C6F` (payload), then the 4-byte little-endian encoding of the
CRC32C of `05000000 || 68656C6C6F`; reading that file back yields the
record `"hello"` and then EndOfFile. -/
theorem container_hello_bytes_roundtrip :
    WritablePBContainerFile.Append
        ⟨5, 5, some [0x68, 0x65, 0x6C, 0x6C, 0x6F], true⟩
        (WritablePBContainerFile.Init
          [0x6B, 0x75, 0x64, 0x75, 0x6B, 0x75, 0x64, 0x75] []) =
      .ok ([0x6B, 0x75, 0x64, 0x75, 0x6B, 0x75, 0x64, 0x75] ++
        [0x01, 0x00, 0x00, 0x00] ++ [0x05, 0x00, 0x00, 0x00] ++
        [0x68, 0x65, 0x6C, 0x6C, 0x6F] ++
        encodeFixed32 (crc32c ([0x05, 0x00, 0x00, 0x00] ++ [0x68, 0x65, 0x6C, 0x6C, 0x6F])))
    ∧ (∀ F, WritablePBContainerFile.Append
          ⟨5, 5, some [0x68, 0x65, 0x6C, 0x6C, 0x6F], true⟩
          (WritablePBContainerFile.Init
            [0x6B, 0x75, 0x64, 0x75, 0x6B, 0x75, 0x64, 0x75] []) = .ok F →
        ReadablePBContainerFile.Init [0x6B, 0x75, 0x64, 0x75, 0x6B, 0x75, 0x64, 0x75]
            ⟨"f", F, 0⟩ = (Status.OK, ⟨"f", F, 12⟩)
        ∧ ReadablePBContainerFile.ReadNextPB
            (fun bs => bs == [0x68, 0x65, 0x6C, 0x6C, 0x6F]) ⟨"f", F, 12⟩ =
          (Status.OK, some [0x68, 0x65, 0x6C, 0x6C, 0x6F], ⟨"f", F, 25⟩)
        ∧ (ReadablePBContainerFile.ReadNextPB
            (fun bs => bs == [0x68, 0x65, 0x6C, 0x6C, 0x6F]) ⟨"f", F, 25⟩).1.code =
          StatusCode.EndOfFile) := by
  refine ⟨by decide, ?_⟩
  intro F hF
  have hF2 : F = [0x6B, 0x75, 0x64, 0x75, 0x6B, 0x75, 0x64, 0x75] ++
      [0x01, 0x00, 0x00, 0x00] ++ [0x05, 0x00, 0x00, 0x00] ++
      [0x68, 0x65, 0x6C, 0x6C, 0x6F] ++
      encodeFixed32 (crc32c ([0x05, 0x00, 0x00, 0x00] ++ [0x68, 0x65, 0x6C, 0x6C, 0x6F])) := by
    have h0 : WritablePBContainerFile.Append
        ⟨5, 5, some [0x68, 0x65, 0x6C, 0x6C, 0x6F], true⟩
        (WritablePBContainerFile.Init
          [0x6B, 0x75, 0x64, 0x75, 0x6B, 0x75, 0x64, 0x75] []) =
        .ok ([0x6B, 0x75, 0x64, 0x75, 0x6B, 0x75, 0x64, 0x75] ++
          [0x01, 0x00, 0x00, 0x00] ++ [0x05, 0x00, 0x00, 0x00] ++
          [0x68, 0x65, 0x6C, 0x6C, 0x6F] ++
          encodeFixed32 (crc32c ([0x05, 0x00, 0x00, 0x00] ++ [0x68, 0x65, 0x6C, 0x6C, 0x6F]))) := by
      decide
    rw [h0] at hF
    exact (AppendResult.ok.injEq _ _).mp hF.symm
  subst hF2
  refine ⟨by decide, by decide, by decide⟩

set_option maxRecDepth 100000 in
/-- C5 witness: the universally quantified read-back part applied at the
concrete file bytes. -/
theorem container_hello_bytes_roundtrip_witness :
    ReadablePBContainerFile.Init [0x6B, 0x75, 0x64, 0x75, 0x6B, 0x75, 0x64, 0x75]
        ⟨"f", [0x6B, 0x75, 0x64, 0x75, 0x6B, 0x75, 0x64, 0x75] ++
          [0x01, 0x00, 0x00, 0x00] ++ [0x05, 0x00, 0x00, 0x00] ++
          [0x68, 0x65, 0x6C, 0x6C, 0x6F] ++
          encodeFixed32 (crc32c ([0x05, 0x00, 0x00, 0x00] ++ [0x68, 0x65, 0x6C, 0x6C, 0x6F])), 0⟩ =
      (Status.OK, ⟨"f", [0x6B, 0x75, 0x64, 0x75, 0x6B, 0x75, 0x64, 0x75] ++
          [0x01, 0x00, 0x00, 0x00] ++ [0x05, 0x00, 0x00, 0x00] ++
          [0x68, 0x65, 0x6C, 0x6C, 0x6F] ++
          encodeFixed32 (crc32c ([0x05, 0x00, 0x00, 0x00] ++ [0x68, 0x65, 0x6C, 0x6C, 0x6F])), 12⟩) :=
  ((container_hello_bytes_roundtrip.2 _ container_hello_bytes_roundtrip.1).1)

/-- C2: a container built by `Init` followed by N `Append` calls with
valid (fully initialized, consistently serializing) messages, read back by
driving `ReadNextPB` from just after the header, yields exactly those N
payloads in write order followed by exactly one EndOfFile signal. -/
theorem container_write_read_roundtrip (path : String)
    (parse : List Nat → Bool) (magic : List Nat) (msgs : List PBMessage)
    (hm : magic.length = 8)
    (hwf : ∀ m ∈ msgs, m.wellFormed = true ∧ m.initialized = true)
    (hparse : ∀ m ∈ msgs, parse m.payload = true)
    (hlen : ∀ m ∈ msgs, m.payload.length < 4294967296) :
    appendMany msgs (WritablePBContainerFile.Init magic []) =
      .ok (containerBytes magic (msgs.map PBMessage.payload))
    ∧ ReadablePBContainerFile.Init magic
        ⟨path, containerBytes magic (msgs.map PBMessage.payload), 0⟩ =
      (Status.OK,
       ⟨path, containerBytes magic (msgs.map PBMessage.payload), kPBContainerHeaderLen⟩)
    ∧ (readMany parse
        ⟨path, containerBytes magic (msgs.map PBMessage.payload), kPBContainerHeaderLen⟩
        (msgs.length + 1)).map (fun r => (r.1.code, r.2)) =
      msgs.map (fun m => (StatusCode.Ok, some m.payload)) ++
        [(StatusCode.EndOfFile, none)] := by
  refine ⟨?_, ?_, ?_⟩
  · rw [appendMany_wellFormed (fun m hmem => (hwf m hmem).1)]
    simp [containerBytes, WritablePBContainerFile.Init, List.map_map]
    rfl
  · exact Init_valid path _ hm
  · have hpre : containerBytes magic (msgs.map PBMessage.payload) =
        (magic ++ encodeFixed32 kPBContainerVersion) ++
          (((msgs.map PBMessage.payload).map frameBytes).flatten) := by
      simp [containerBytes]
    have hoff : kPBContainerHeaderLen =
        (magic ++ encodeFixed32 kPBContainerVersion).length := by
      rw [List.length_append, length_encodeFixed32, hm]
      rfl
    have hcount : msgs.length + 1 = (msgs.map PBMessage.payload).length + 1 := by
      rw [List.length_map]
    rw [hpre, hoff, hcount,
      readMany_frames parse path (magic ++ encodeFixed32 kPBContainerVersion)
        (msgs.map PBMessage.payload)
        (by intro d hd
            obtain ⟨m, hmem, hpd⟩ := List.mem_map.mp hd
            rw [← hpd]; exact hlen m hmem)
        (by intro d hd
            obtain ⟨m, hmem, hpd⟩ := List.mem_map.mp hd
            rw [← hpd]; exact hparse m hmem)]
    rw [List.map_map]
    rfl

set_option maxRecDepth 100000 in
/-- C2 witness: two concrete messages written and read back. -/
theorem container_write_read_roundtrip_witness :
    (∀ m ∈ [(⟨2, 2, some [0xAA, 0xBB], true⟩ : PBMessage),
            ⟨1, 1, some [0x42], true⟩],
       m.wellFormed = true ∧ m.initialized = true) ∧
    appendMany [(⟨2, 2, some [0xAA, 0xBB], true⟩ : PBMessage),
        ⟨1, 1, some [0x42], true⟩]
      (WritablePBContainerFile.Init [0x6B, 0x75, 0x64, 0x75, 0x6B, 0x75, 0x64, 0x75] []) =
      .ok (containerBytes [0x6B, 0x75, 0x64, 0x75, 0x6B, 0x75, 0x64, 0x75]
        [[0xAA, 0xBB], [0x42]]) ∧
    (readMany (fun _ => true)
      ⟨"f", containerBytes [0x6B, 0x75, 0x64, 0x75, 0x6B, 0x75, 0x64, 0x75]
        [[0xAA, 0xBB], [0x42]], kPBContainerHeaderLen⟩ 3).map
        (fun r => (r.1.code, r.2)) =
      [(StatusCode.Ok, some [0xAA, 0xBB]), (StatusCode.Ok, some [0x42]),
       (StatusCode.EndOfFile, none)] := by
  have h := container_write_read_roundtrip "f" (fun _ => true)
    [0x6B, 0x75, 0x64, 0x75, 0x6B, 0x75, 0x64, 0x75]
    [(⟨2, 2, some [0xAA, 0xBB], true⟩ : PBMessage), ⟨1, 1, some [0x42], true⟩]
    (by decide) (by decide) (by decide) (by decide)
  exact ⟨by decide, h.1, h.2.2⟩

/-- C10: `ReadPBContainerFromPath` validates the header, reads exactly one
record frame and returns success without checking that end-of-file
follows: any trailing bytes after the first frame are ignored. -/
theorem read_container_ignores_trailing (parse : List Nat → Bool)
    (path : String) (magic d trailing : List Nat)
    (hm : magic.length = 8) (hd : d.length < 4294967296)
    (hp : parse d = true) :
    ReadPBContainerFromPath parse path
        (magic ++ encodeFixed32 kPBContainerVersion ++ frameBytes d ++ trailing)
        magic = (Status.OK, some d) := by
  have hfile : magic ++ encodeFixed32 kPBContainerVersion ++ frameBytes d ++ trailing =
      magic ++ encodeFixed32 kPBContainerVersion ++ (frameBytes d ++ trailing) := by
    simp
  unfold ReadPBContainerFromPath
  rw [hfile]
  simp only
  rw [Init_valid path (frameBytes d ++ trailing) hm]
  simp only [Status.OK, ne_eq, not_true_eq_false, if_false, reduceCtorEq,
    ite_false]
  have hpre : magic ++ encodeFixed32 kPBContainerVersion ++ (frameBytes d ++ trailing) =
      (magic ++ encodeFixed32 kPBContainerVersion) ++ frameBytes d ++ trailing := by
    simp
  have hoff : kPBContainerHeaderLen =
      (magic ++ encodeFixed32 kPBContainerVersion).length := by
    rw [List.length_append, length_encodeFixed32, hm]
    rfl
  rw [hpre, hoff, ReadNextPB_frame hd hp]
  simp [ReadablePBContainerFile.Close, Status.OK]

set_option maxRecDepth 100000 in
/-- C10 witness: a valid single-record container followed by garbage
bytes still reads back the record with OK status. -/
theorem read_container_ignores_trailing_witness :
    ReadPBContainerFromPath (fun _ => true) "f"
        ([0x6B, 0x75, 0x64, 0x75, 0x6B, 0x75, 0x64, 0x75] ++
          encodeFixed32 kPBContainerVersion ++ frameBytes [0x01, 0x02] ++
          [0xDE, 0xAD, 0xBE, 0xEF])
        [0x6B, 0x75, 0x64, 0x75, 0x6B, 0x75, 0x64, 0x75] =
      (Status.OK, some [0x01, 0x02]) :=
  read_container_ignores_trailing (fun _ => true) "f"
    [0x6B, 0x75, 0x64, 0x75, 0x6B, 0x75, 0x64, 0x75] [0x01, 0x02]
    [0xDE, 0xAD, 0xBE, 0xEF] (by decide) (by decide) (by decide)

/-- C6: on a file of at least 12 bytes, `Init` returns Corruption whenever
the first 8 bytes differ from the expected magic (with both magics escaped
in the message), and NotSupported whenever the magic matches but the
4-byte version field is not 1. -/
theorem init_magic_version_errors (path : String) (file magic : List Nat)
    (hm : magic.length = 8) (hf : 12 ≤ file.length) :
    (file.take 8 ≠ magic →
      (ReadablePBContainerFile.Init magic ⟨path, file, 0⟩).1.code =
        StatusCode.Corruption ∧
      (ReadablePBContainerFile.Init magic ⟨path, file, 0⟩).1.msg =
        "Invalid magic number" ++ ": " ++
          ("Expected: " ++ utf8SafeCEscape magic ++ ", found: " ++
            utf8SafeCEscape (file.take 8)))
    ∧ (file.take 8 = magic →
        decodeFixed32 ((file.take 12).drop 8) ≠ kPBContainerVersion →
        (ReadablePBContainerFile.Init magic ⟨path, file, 0⟩).1.code =
          StatusCode.NotSupported) := by
  have hred : ReadablePBContainerFile.Init magic ⟨path, file, 0⟩ =
      (if file.take 8 ≠ magic then
        Status.corruption "Invalid magic number"
          (substitute "Expected: $0, found: $1"
            [utf8SafeCEscape magic, utf8SafeCEscape (file.take 8)])
      else if decodeFixed32 ((file.take 12).drop 8) ≠ kPBContainerVersion then
        Status.notSupported
          (substitute "Protobuf container has version $0, we only support version $1"
            [toString (decodeFixed32 ((file.take 12).drop 8)), toString kPBContainerVersion])
      else Status.OK, ⟨path, file, 12⟩) := by
    unfold ReadablePBContainerFile.Init
    rw [ValidateAndRead_ok .EOF_NOT_OK
      (by show 0 + kPBContainerHeaderLen ≤ file.length
          show 0 + 12 ≤ file.length
          omega)]
    simp only [List.drop_zero]
    have htake8 : (file.take kPBContainerHeaderLen).take kPBContainerMagicLen =
        file.take 8 := by
      show (file.take 12).take 8 = file.take 8
      rw [List.take_take]
      norm_num
    have hdrop8 : (file.take kPBContainerHeaderLen).drop kPBContainerMagicLen =
        (file.take 12).drop 8 := rfl
    rw [htake8, hdrop8]
    by_cases hmg : file.take 8 ≠ magic
    · rw [if_pos hmg, if_pos hmg]
      rfl
    · rw [if_neg hmg, if_neg hmg]
      by_cases hv : decodeFixed32 ((file.take 12).drop 8) ≠ kPBContainerVersion
      · rw [if_pos hv, if_pos hv]
        rfl
      · rw [if_neg hv, if_neg hv]
        rfl
  constructor
  · intro hmg
    rw [hred, if_pos hmg]
    refine ⟨rfl, ?_⟩
    show combineMsg "Invalid magic number"
      (substitute "Expected: $0, found: $1"
        [utf8SafeCEscape magic, utf8SafeCEscape (file.take 8)]) = _
    rw [substitute_expected]
    unfold combineMsg
    rw [if_neg ?hne]
    case hne =>
      intro hemp
      have hl := congrArg String.length hemp
      rw [String.length_append, String.length_append, String.length_append] at hl
      have h10 : ("Expected: " : String).length = 10 := rfl
      have h0 : ("" : String).length = 0 := rfl
      omega
  · intro hmg hv
    rw [hred, if_neg (by simp [hmg]), if_pos hv]
    rfl

/-- C6 witness: an all-zero 12-byte file is rejected as Corruption, and a
correct magic with version field 2 is rejected as NotSupported. -/
theorem init_magic_version_errors_witness :
    (ReadablePBContainerFile.Init [0x6B, 0x75, 0x64, 0x75, 0x6B, 0x75, 0x64, 0x75]
        ⟨"f", List.replicate 12 0, 0⟩).1.code = StatusCode.Corruption
    ∧ (ReadablePBContainerFile.Init [0x6B, 0x75, 0x64, 0x75, 0x6B, 0x75, 0x64, 0x75]
        ⟨"f", [0x6B, 0x75, 0x64, 0x75, 0x6B, 0x75, 0x64, 0x75, 0x02, 0x00, 0x00, 0x00],
         0⟩).1.code = StatusCode.NotSupported :=
  ⟨((init_magic_version_errors "f" (List.replicate 12 0)
      [0x6B, 0x75, 0x64, 0x75, 0x6B, 0x75, 0x64, 0x75] (by decide) (by decide)).1
      (by decide)).1,
   (init_magic_version_errors "f"
      [0x6B, 0x75, 0x64, 0x75, 0x6B, 0x75, 0x64, 0x75, 0x02, 0x00, 0x00, 0x00]
      [0x6B, 0x75, 0x64, 0x75, 0x6B, 0x75, 0x64, 0x75] (by decide) (by decide)).2
      (by decide) (by decide)⟩

/-- Generic reduction of `ReadNextPB` over a fully available frame-shaped
region `sb || body || cb` at the cursor, where `sb` decodes to the body
length: the three bounded reads succeed and the result is decided by the
checksum comparison and the parse outcome. -/
theorem ReadNextPB_parts (parse : List Nat → Bool) (path : String)
    (pre sb body cb tail : List Nat) (hsb : sb.length = 4) (hcb : cb.length = 4)
    (hds : decodeFixed32 sb = body.length) :
    ReadablePBContainerFile.ReadNextPB parse
        ⟨path, pre ++ sb ++ body ++ cb ++ tail, pre.length⟩ =
      (if crc32c (sb ++ body) ≠ decodeFixed32 cb then
        (Status.corruption
          (substitute "Incorrect checksum of file $0: actually $1, expected $2"
            [path, toString (crc32c (sb ++ body)), toString (decodeFixed32 cb)]) "",
         none,
         ⟨path, pre ++ sb ++ body ++ cb ++ tail, pre.length + 4 + body.length + 4⟩)
      else if ¬ parse body then
        (Status.ioError "Unable to parse PB from path" path, none,
         ⟨path, pre ++ sb ++ body ++ cb ++ tail, pre.length + 4 + body.length + 4⟩)
      else
        (Status.OK, some body,
         ⟨path, pre ++ sb ++ body ++ cb ++ tail, pre.length + 4 + body.length + 4⟩)) := by
  have hlen : (pre ++ sb ++ body ++ cb ++ tail).length =
      pre.length + 4 + body.length + 4 + tail.length := by
    simp [List.length_append, hsb, hcb]
    omega
  unfold ReadablePBContainerFile.ReadNextPB
  rw [ValidateAndRead_ok .EOF_OK
    (by show pre.length + 4 ≤ (pre ++ sb ++ body ++ cb ++ tail).length
        rw [hlen]; omega)]
  simp only
  have hd1 : ((pre ++ sb ++ body ++ cb ++ tail).drop pre.length).take 4 = sb := by
    have h1 : pre ++ sb ++ body ++ cb ++ tail =
        pre ++ (sb ++ (body ++ (cb ++ tail))) := by simp
    rw [h1, List.drop_left, List.take_left' hsb]
  rw [hd1, hds]
  rw [ValidateAndRead_ok .EOF_NOT_OK
    (by show pre.length + 4 + body.length ≤ (pre ++ sb ++ body ++ cb ++ tail).length
        rw [hlen]; omega)]
  simp only
  have hd2 : ((pre ++ sb ++ body ++ cb ++ tail).drop (pre.length + 4)).take body.length
      = body := by
    have h2 : pre ++ sb ++ body ++ cb ++ tail =
        (pre ++ sb) ++ (body ++ (cb ++ tail)) := by simp
    rw [h2, List.drop_left' (by rw [List.length_append, hsb]), List.take_left' rfl]
  rw [hd2]
  rw [ValidateAndRead_ok .EOF_NOT_OK
    (by show pre.length + 4 + body.length + 4 ≤ (pre ++ sb ++ body ++ cb ++ tail).length
        rw [hlen]; omega)]
  simp only
  have hd3 : ((pre ++ sb ++ body ++ cb ++ tail).drop (pre.length + 4 + body.length)).take
      kPBContainerChecksumLen = cb := by
    have h3 : pre ++ sb ++ body ++ cb ++ tail =
        (pre ++ sb ++ body) ++ (cb ++ tail) := by simp
    rw [h3, List.drop_left'
        (by rw [List.length_append, List.length_append, hsb]),
      List.take_left' (by rw [hcb]; rfl)]
  rw [hd3]
  rfl

/-- C4: when a fully read frame's stored checksum differs from the CRC32C
recomputed over the raw length-field bytes and the payload, `ReadNextPB`
returns Corruption reporting both the computed and the stored value; when
the checksum matches but the payload fails to decode, it returns the
distinct IOError status instead. -/
theorem readNext_checksum_and_parse_errors (parse : List Nat → Bool)
    (path : String) (pre sb body cb tail : List Nat)
    (hsb : sb.length = 4) (hcb : cb.length = 4)
    (hds : decodeFixed32 sb = body.length) :
    (decodeFixed32 cb ≠ crc32c (sb ++ body) →
      (ReadablePBContainerFile.ReadNextPB parse
          ⟨path, pre ++ sb ++ body ++ cb ++ tail, pre.length⟩).1.code =
        StatusCode.Corruption
      ∧ (ReadablePBContainerFile.ReadNextPB parse
          ⟨path, pre ++ sb ++ body ++ cb ++ tail, pre.length⟩).2.1 = none
      ∧ (ReadablePBContainerFile.ReadNextPB parse
          ⟨path, pre ++ sb ++ body ++ cb ++ tail, pre.length⟩).1.msg =
        "Incorrect checksum of file " ++ path ++ ": actually " ++
          toString (crc32c (sb ++ body)) ++ ", expected " ++
          toString (decodeFixed32 cb))
    ∧ (decodeFixed32 cb = crc32c (sb ++ body) → parse body = false →
      (ReadablePBContainerFile.ReadNextPB parse
          ⟨path, pre ++ sb ++ body ++ cb ++ tail, pre.length⟩).1 =
        Status.ioError "Unable to parse PB from path" path
      ∧ (ReadablePBContainerFile.ReadNextPB parse
          ⟨path, pre ++ sb ++ body ++ cb ++ tail, pre.length⟩).2.1 = none) := by
  rw [ReadNextPB_parts parse path pre sb body cb tail hsb hcb hds]
  constructor
  · intro hne
    rw [if_pos (Ne.symm hne)]
    refine ⟨rfl, rfl, ?_⟩
    show combineMsg (substitute _ _) "" = _
    rw [substitute_checksum]
    unfold combineMsg
    rw [if_pos rfl]
  · intro heq hp
    rw [if_neg (by rw [heq]; exact fun hn => hn rfl), hp]
    exact ⟨by simp, by simp⟩

set_option maxRecDepth 100000 in
/-- C4 witness: flipping one bit in the `"hello"` payload (final byte
`0x6F → 0x6E`) with the original stored checksum yields Corruption, and a
checksum-valid frame whose payload the decoder rejects yields IOError. -/
theorem readNext_checksum_and_parse_errors_witness :
    (ReadablePBContainerFile.ReadNextPB (fun _ => true)
        ⟨"f", [] ++ [0x05, 0x00, 0x00, 0x00] ++ [0x68, 0x65, 0x6C, 0x6C, 0x6E] ++
          encodeFixed32 (crc32c ([0x05, 0x00, 0x00, 0x00] ++ [0x68, 0x65, 0x6C, 0x6C, 0x6F])) ++
          [], 0⟩).1.code = StatusCode.Corruption
    ∧ (ReadablePBContainerFile.ReadNextPB (fun _ => false)
        ⟨"f", [] ++ [0x01, 0x00, 0x00, 0x00] ++ [0x42] ++
          encodeFixed32 (crc32c ([0x01, 0x00, 0x00, 0x00] ++ [0x42])) ++ [], 0⟩).1 =
      Status.ioError "Unable to parse PB from path" "f" := by
  constructor
  · exact ((readNext_checksum_and_parse_errors (fun _ => true) "f" []
      [0x05, 0x00, 0x00, 0x00] [0x68, 0x65, 0x6C, 0x6C, 0x6E]
      (encodeFixed32 (crc32c ([0x05, 0x00, 0x00, 0x00] ++ [0x68, 0x65, 0x6C, 0x6C, 0x6F])))
      [] (by decide) (by decide) (by decide)).1 (by decide)).1
  · exact ((readNext_checksum_and_parse_errors (fun _ => false) "f" []
      [0x01, 0x00, 0x00, 0x00] [0x42]
      (encodeFixed32 (crc32c ([0x01, 0x00, 0x00, 0x00] ++ [0x42])))
      [] (by decide) (by decide) (by decide)).2 (by decide) (by decide)).1

set_option maxRecDepth 100000 in
/-- C3 counterexample: the valid `"hello"` container truncated at byte
offset 14 — strictly inside the frame that spans offsets 12 to 24 (after
its first byte, before its last) — makes the next `ReadNextPB` return the
clean EndOfFile signal, not Corruption as the claim states. -/
theorem truncation_inside_frame_eof_counterexample :
    12 < 14 ∧ 14 < 12 + (frameBytes [0x68, 0x65, 0x6C, 0x6C, 0x6F]).length ∧
    (ReadablePBContainerFile.ReadNextPB (fun _ => true)
        ⟨"f", (containerBytes [0x6B, 0x75, 0x64, 0x75, 0x6B, 0x75, 0x64, 0x75]
          [[0x68, 0x65, 0x6C, 0x6C, 0x6F]]).take 14, 12⟩).1.code =
      StatusCode.EndOfFile ∧
    StatusCode.EndOfFile ≠ StatusCode.Corruption := by
  decide

/-- C3 amended: truncating a well-formed container strictly inside a frame
returns Corruption only when at least the full 4-byte length field of the
frame survives; if the truncation point leaves 1-3 bytes of the frame
(inside its length field), `ReadNextPB` returns the clean EndOfFile signal
instead, and truncation exactly at a frame boundary (including the
header-only empty container) also returns EndOfFile. -/
theorem truncation_behavior :
    (∀ (parse : List Nat → Bool) (path : String) (pre d : List Nat) (t : Nat),
      0 < t → t < (frameBytes d).length → d.length < 4294967296 →
      (t < 4 →
        (ReadablePBContainerFile.ReadNextPB parse
          ⟨path, pre ++ (frameBytes d).take t, pre.length⟩).1.code =
          StatusCode.EndOfFile)
      ∧ (4 ≤ t →
        (ReadablePBContainerFile.ReadNextPB parse
          ⟨path, pre ++ (frameBytes d).take t, pre.length⟩).1.code =
          StatusCode.Corruption))
    ∧ (∀ (parse : List Nat → Bool) (st : ReaderState),
        st.offset = st.file.length →
        (ReadablePBContainerFile.ReadNextPB parse st).1.code =
          StatusCode.EndOfFile) := by
  constructor
  · intro parse path pre d t ht0 htf hdlt
    have hflen : (frameBytes d).length = d.length + 8 := length_frameBytes d
    have hlen : (pre ++ (frameBytes d).take t).length = pre.length + t := by
      rw [List.length_append, List.length_take]
      omega
    constructor
    · intro ht4
      rw [ReadNextPB_eof parse
        (by show (pre ++ (frameBytes d).take t).length < pre.length + 4
            rw [hlen]; omega)]
      rfl
    · intro ht4
      unfold ReadablePBContainerFile.ReadNextPB
      rw [ValidateAndRead_ok .EOF_OK
        (by show pre.length + 4 ≤ (pre ++ (frameBytes d).take t).length
            rw [hlen]; omega)]
      simp only
      have hd1 : (((pre ++ (frameBytes d).take t).drop pre.length)).take 4 =
          encodeFixed32 d.length := by
        rw [List.drop_left]
        rw [List.take_take]
        have hm4 : min 4 t = 4 := by omega
        rw [hm4, frameBytes, List.append_assoc,
          List.take_left' (length_encodeFixed32 _)]
      rw [hd1, decodeFixed32_encodeFixed32_of_lt hdlt]
      by_cases hbody : t < 4 + d.length
      · rw [ValidateAndRead_shortfall
          (by show pre.length + 4 + d.length > (pre ++ (frameBytes d).take t).length
              rw [hlen]; omega)]
        simp only
        rfl
      · rw [ValidateAndRead_ok .EOF_NOT_OK
          (by show pre.length + 4 + d.length ≤ (pre ++ (frameBytes d).take t).length
              rw [hlen]; omega)]
        simp only
        rw [ValidateAndRead_shortfall
          (by show pre.length + 4 + d.length + 4 > (pre ++ (frameBytes d).take t).length
              rw [hlen]; omega)]
        simp only
        rfl
  · intro parse st h
    rw [ReadNextPB_eof parse (by omega)]
    rfl

set_option maxRecDepth 100000 in
/-- C3 witness: truncating the `"hello"` container to 13 bytes (one byte
into the frame) gives EndOfFile; truncating it to 17 bytes (full length
field plus one body byte) gives Corruption; the header-only empty
container gives EndOfFile immediately. -/
theorem truncation_behavior_witness :
    (ReadablePBContainerFile.ReadNextPB (fun _ => true)
        ⟨"f", ([0x6B, 0x75, 0x64, 0x75, 0x6B, 0x75, 0x64, 0x75] ++
          encodeFixed32 kPBContainerVersion) ++
          (frameBytes [0x68, 0x65, 0x6C, 0x6C, 0x6F]).take 1, 12⟩).1.code =
      StatusCode.EndOfFile
    ∧ (ReadablePBContainerFile.ReadNextPB (fun _ => true)
        ⟨"f", ([0x6B, 0x75, 0x64, 0x75, 0x6B, 0x75, 0x64, 0x75] ++
          encodeFixed32 kPBContainerVersion) ++
          (frameBytes [0x68, 0x65, 0x6C, 0x6C, 0x6F]).take 5, 12⟩).1.code =
      StatusCode.Corruption
    ∧ (ReadablePBContainerFile.ReadNextPB (fun _ => true)
        ⟨"f", [0x6B, 0x75, 0x64, 0x75, 0x6B, 0x75, 0x64, 0x75] ++
          encodeFixed32 kPBContainerVersion, 12⟩).1.code =
      StatusCode.EndOfFile := by
  refine ⟨?_, ?_, ?_⟩
  · have h := (truncation_behavior.1 (fun _ => true) "f"
      ([0x6B, 0x75, 0x64, 0x75, 0x6B, 0x75, 0x64, 0x75] ++
        encodeFixed32 kPBContainerVersion) [0x68, 0x65, 0x6C, 0x6C, 0x6F] 1
      (by decide) (by decide) (by decide)).1 (by decide)
    simpa using h
  · have h := (truncation_behavior.1 (fun _ => true) "f"
      ([0x6B, 0x75, 0x64, 0x75, 0x6B, 0x75, 0x64, 0x75] ++
        encodeFixed32 kPBContainerVersion) [0x68, 0x65, 0x6C, 0x6C, 0x6F] 5
      (by decide) (by decide) (by decide)).2 (by decide)
    simpa using h
  · have h := truncation_behavior.2 (fun _ => true)
      ⟨"f", [0x6B, 0x75, 0x64, 0x75, 0x6B, 0x75, 0x64, 0x75] ++
        encodeFixed32 kPBContainerVersion, 12⟩ (by decide)
    simpa using h

/-! ### Cursor monotonicity helper lemmas -/

theorem ValidateAndRead_offset_mono (st : ReaderState) (length : Nat)
    (eofOK : EofOK) :
    st.offset ≤ (ValidateAndRead st length eofOK).2.offset := by
  by_cases h : st.offset + length ≤ st.file.length
  · rw [ValidateAndRead_ok eofOK h]
    simp
  · cases eofOK
    · rw [ValidateAndRead_eof (by omega)]
    · rw [ValidateAndRead_shortfall (by omega)]

theorem Init_offset_mono (magic : List Nat) (st : ReaderState) :
    st.offset ≤ (ReadablePBContainerFile.Init magic st).2.offset := by
  unfold ReadablePBContainerFile.Init
  by_cases h : st.offset + kPBContainerHeaderLen ≤ st.file.length
  · rw [ValidateAndRead_ok .EOF_NOT_OK h]
    simp only
    split_ifs <;> simp [Nat.le_add_right]
  · rw [ValidateAndRead_shortfall (by omega)]

theorem ReadNextPB_offset_mono (parse : List Nat → Bool) (st : ReaderState) :
    st.offset ≤ (ReadablePBContainerFile.ReadNextPB parse st).2.2.offset := by
  unfold ReadablePBContainerFile.ReadNextPB
  rcases h1 : ValidateAndRead st 4 .EOF_OK with ⟨r1, st1⟩
  have hm1 : st.offset ≤ st1.offset := by
    have := ValidateAndRead_offset_mono st 4 .EOF_OK
    rw [h1] at this
    exact this
  cases r1 with
  | error s => simpa using hm1
  | ok size =>
    simp only
    rcases h2 : ValidateAndRead st1 (decodeFixed32 size) .EOF_NOT_OK with ⟨r2, st2⟩
    have hm2 : st1.offset ≤ st2.offset := by
      have := ValidateAndRead_offset_mono st1 (decodeFixed32 size) .EOF_NOT_OK
      rw [h2] at this
      exact this
    cases r2 with
    | error s => simpa using hm1.trans hm2
    | ok body =>
      simp only
      rcases h3 : ValidateAndRead st2 kPBContainerChecksumLen .EOF_NOT_OK with ⟨r3, st3⟩
      have hm3 : st2.offset ≤ st3.offset := by
        have := ValidateAndRead_offset_mono st2 kPBContainerChecksumLen .EOF_NOT_OK
        rw [h3] at this
        exact this
      have hm : st.offset ≤ st3.offset := (hm1.trans hm2).trans hm3
      cases r3 with
      | error s => simpa using hm
      | ok encoded_checksum =>
        simp only
        split_ifs <;> simpa using hm

/-- C9: the read cursor never rewinds — `ValidateAndRead`, `Init` and
`ReadNextPB` all leave the offset greater than or equal to what it was,
whether they succeed or fail — and every successful bounded read returns
exactly the requested bytes and advances the cursor by exactly that
count. -/
theorem read_cursor_monotone :
    (∀ (st : ReaderState) (length : Nat) (eofOK : EofOK),
      st.offset ≤ (ValidateAndRead st length eofOK).2.offset)
    ∧ (∀ (st : ReaderState) (length : Nat) (eofOK : EofOK)
        (bs : List Nat) (st2 : ReaderState),
        ValidateAndRead st length eofOK = (.ok bs, st2) →
        st2.offset = st.offset + bs.length ∧ bs.length = length)
    ∧ (∀ (magic : List Nat) (st : ReaderState),
        st.offset ≤ (ReadablePBContainerFile.Init magic st).2.offset)
    ∧ (∀ (parse : List Nat → Bool) (st : ReaderState),
        st.offset ≤ (ReadablePBContainerFile.ReadNextPB parse st).2.2.offset) := by
  refine ⟨ValidateAndRead_offset_mono, ?_, Init_offset_mono, ReadNextPB_offset_mono⟩
  intro st length eofOK bs st2 heq
  by_cases h : st.offset + length ≤ st.file.length
  · rw [ValidateAndRead_ok eofOK h] at heq
    have hb : bs = (st.file.drop st.offset).take length := by
      have := congrArg Prod.fst heq
      simpa using this.symm
    have hst : st2 = ⟨st.path, st.file, st.offset + length⟩ := by
      have := congrArg Prod.snd heq
      simpa using this.symm
    have hlen : bs.length = length := by
      rw [hb, List.length_take, List.length_drop]
      omega
    rw [hst, hlen]
    exact ⟨rfl, rfl⟩
  · exfalso
    cases eofOK
    · rw [ValidateAndRead_eof (by omega)] at heq
      exact absurd (congrArg Prod.fst heq) (by simp)
    · rw [ValidateAndRead_shortfall (by omega)] at heq
      exact absurd (congrArg Prod.fst heq) (by simp)

/-- C9 witness: a concrete successful bounded read advances the cursor by
exactly the number of bytes read, and the monotonicity parts at concrete
states. -/
theorem read_cursor_monotone_witness :
    ((⟨"f", [1, 2, 3, 4, 5], 1⟩ : ReaderState).offset + [2, 3, 4].length = 4 ∧
      ([2, 3, 4] : List Nat).length = 3) ∧
    (⟨"f", [1, 2], 2⟩ : ReaderState).offset ≤
      (ReadablePBContainerFile.ReadNextPB (fun _ => true) ⟨"f", [1, 2], 2⟩).2.2.offset := by
  constructor
  · have h := read_cursor_monotone.2.1 ⟨"f", [1, 2, 3, 4, 5], 1⟩ 3 .EOF_OK
      [2, 3, 4] ⟨"f", [1, 2, 3, 4, 5], 4⟩ rfl
    exact ⟨by rw [← h.1], h.2⟩
  · exact read_cursor_monotone.2.2.2 (fun _ => true) ⟨"f", [1, 2], 2⟩

set_option maxRecDepth 100000 in
/-- C1 counterexample: a message that reports `ByteSize() = 10` while its
serializer produces 11 bytes does not trigger any fatal consistency check
in `WritablePBContainerFile::Append`: the call neither aborts nor returns
an error — it returns OK. -/
theorem append_size_mismatch_no_abort_counterexample :
    (List.replicate 11 0x41).length ≠ (10 : Nat) ∧
    (WritablePBContainerFile.Append
      ⟨10, 10, some (List.replicate 11 0x41), true⟩ []).isFatalCrash = false ∧
    (WritablePBContainerFile.Append
      ⟨10, 10, some (List.replicate 11 0x41), true⟩ []).isOk = true := by
  decide

/-- C1 amended: `WritablePBContainerFile::Append` performs no byte-size
consistency check and never aborts — a size mismatch between `ByteSize()`
and the serializer's output goes undetected there, and a failed serializer
yields a returned IOError status; the fatal consistency check
(`ByteSizeConsistencyError`) runs only in the faststring serialization
helper `AppendPartialToString` when the measured and produced byte counts
differ. -/
theorem append_no_fatal_check :
    (∀ (m : PBMessage) (fileBytes : List Nat),
      (WritablePBContainerFile.Append m fileBytes).isFatalCrash = false)
    ∧ (∀ (m : PBMessage) (fileBytes : List Nat), m.serialized = none →
        WritablePBContainerFile.Append m fileBytes =
          .err (Status.ioError "Failed to serialize PB to array" ""))
    ∧ (∀ (m : PBMessage) (output bs : List Nat), m.serialized = some bs →
        bs.length ≠ m.byteSizeBefore →
        (AppendPartialToString m output).isFatalCrash = true) := by
  refine ⟨?_, ?_, ?_⟩
  · intro m fileBytes
    unfold WritablePBContainerFile.Append
    cases m.serialized <;> rfl
  · intro m fileBytes hs
    unfold WritablePBContainerFile.Append
    rw [hs]
  · intro m output bs hs hne
    unfold AppendPartialToString
    have hpay : m.payload = bs := by simp [PBMessage.payload, hs]
    rw [hpay, if_pos hne]
    unfold ByteSizeConsistencyError
    split_ifs <;> rfl

set_option maxRecDepth 100000 in
/-- C1 amended witness: the mismatching message from the counterexample
input run through both paths. -/
theorem append_no_fatal_check_witness :
    (WritablePBContainerFile.Append
      ⟨10, 10, some (List.replicate 11 0x41), true⟩ []).isFatalCrash = false ∧
    WritablePBContainerFile.Append ⟨10, 10, none, true⟩ [] =
      .err (Status.ioError "Failed to serialize PB to array" "") ∧
    (AppendPartialToString ⟨10, 10, some (List.replicate 11 0x41), true⟩
      []).isFatalCrash = true :=
  ⟨append_no_fatal_check.1 ⟨10, 10, some (List.replicate 11 0x41), true⟩ [],
   append_no_fatal_check.2.1 ⟨10, 10, none, true⟩ [] rfl,
   append_no_fatal_check.2.2 ⟨10, 10, some (List.replicate 11 0x41), true⟩ []
     (List.replicate 11 0x41) rfl (by decide)⟩

set_option maxRecDepth 100000 in
/-- C8: the Corruption status produced by `ValidateAndRead` for a read
past end-of-file under `EOF_NOT_OK` does not describe the shortfall as
path, requested length, offset and actual size: the C++ format string
reuses `$0`, so the message substitutes the path for the requested
length, the length for the offset, the offset for the size, and never
mentions the actual file size.  Here: a 5-byte file read at offset 0 for
12 bytes yields a message claiming offset 12 and size 0 and containing no
digit 5. -/
theorem validateAndRead_shortfall_message_bug :
    ([0, 0, 0, 0, 0] : List Nat).length = 5 ∧
    ValidateAndRead ⟨"f", [0, 0, 0, 0, 0], 0⟩ 12 .EOF_NOT_OK =
      (.error ⟨StatusCode.Corruption,
        "File size not large enough to be valid: Proto container file f: tried to read f bytes at offset 12 but file size is only 0"⟩,
       ⟨"f", [0, 0, 0, 0, 0], 0⟩) ∧
    ¬ '5' ∈ ("File size not large enough to be valid: Proto container file f: tried to read f bytes at offset 12 but file size is only 0").data := by
  refine ⟨rfl, rfl, by decide⟩

theorem Append_ok_of_some {m : PBMessage} {bs : List Nat}
    (hs : m.serialized = some bs) (fileBytes : List Nat) :
    ∃ content, WritablePBContainerFile.Append m fileBytes = .ok content := by
  unfold WritablePBContainerFile.Append
  rw [hs]
  exact ⟨_, rfl⟩

theorem Append_err_of_none {m : PBMessage} (hs : m.serialized = none)
    (fileBytes : List Nat) :
    WritablePBContainerFile.Append m fileBytes =
      .err (Status.ioError "Failed to serialize PB to array" "") := by
  unfold WritablePBContainerFile.Append
  rw [hs]

/-- C7: for both path-level writes, any failure of a step after temp-file
creation and before the rename has succeeded makes the scoped deleter
remove the temp file while the target path keeps its prior contents; and
once the rename succeeds the deleter is cancelled — it never fires on the
renamed-away temp path. -/
theorem path_write_atomic_cleanup :
    (∀ (b : EnvBehavior) (fs : FS) (path : String) (msg : PBMessage)
        (sync : SyncMode),
      b.newTempOk = true →
      (msg.serialized = none ∨ b.writeOk = false ∨
        (sync = SyncMode.SYNC ∧ b.syncOk = false) ∨ b.closeOk = false ∨
        b.renameOk = false) →
      (WritePBToPath b fs path msg sync).deleterFired = true
      ∧ (WritePBToPath b fs path msg sync).fs (tmpPathOf path) = none
      ∧ (WritePBToPath b fs path msg sync).fs path = fs path)
    ∧ (∀ (b : EnvBehavior) (fs : FS) (path : String) (msg : PBMessage)
        (sync : SyncMode) (bytes : List Nat),
      b.newTempOk = true → msg.serialized = some bytes → b.writeOk = true →
      (sync = SyncMode.SYNC → b.syncOk = true) → b.closeOk = true →
      b.renameOk = true →
      (WritePBToPath b fs path msg sync).deleterFired = false
      ∧ (WritePBToPath b fs path msg sync).fs (tmpPathOf path) = none
      ∧ (WritePBToPath b fs path msg sync).fs path = some bytes)
    ∧ (∀ (b : EnvBehavior) (fs : FS) (path : String) (magic : List Nat)
        (msg : PBMessage) (sync : SyncMode),
      b.newTempOk = true →
      (b.initAppendOk = false ∨ msg.serialized = none ∨ b.dataAppendOk = false ∨
        (sync = SyncMode.SYNC ∧ b.syncOk = false) ∨ b.closeOk = false ∨
        b.renameOk = false) →
      (WritePBContainerToPath b fs path magic msg sync).deleterFired = true
      ∧ (WritePBContainerToPath b fs path magic msg sync).fs (tmpPathOf path) = none
      ∧ (WritePBContainerToPath b fs path magic msg sync).fs path = fs path)
    ∧ (∀ (b : EnvBehavior) (fs : FS) (path : String) (magic : List Nat)
        (msg : PBMessage) (sync : SyncMode) (bytes : List Nat),
      b.newTempOk = true → b.initAppendOk = true → msg.serialized = some bytes →
      b.dataAppendOk = true → (sync = SyncMode.SYNC → b.syncOk = true) →
      b.closeOk = true → b.renameOk = true →
      ∃ content,
        WritablePBContainerFile.Append msg (WritablePBContainerFile.Init magic []) =
          .ok content
        ∧ (WritePBContainerToPath b fs path magic msg sync).deleterFired = false
        ∧ (WritePBContainerToPath b fs path magic msg sync).fs (tmpPathOf path) = none
        ∧ (WritePBContainerToPath b fs path magic msg sync).fs path = some content) := by
  refine ⟨?_, ?_, ?_, ?_⟩
  · intro b fs path msg sync hnew hfail
    have hne : path ≠ tmpPathOf path := Ne.symm (tmpPathOf_ne path)
    rcases hs : msg.serialized with _ | bytes
    · simp [WritePBToPath, hnew, hs, fsUpdate, hne, tmpPathOf_ne]
    · by_cases hw : b.writeOk = true
      · by_cases hsy : sync = SyncMode.SYNC ∧ b.syncOk = false
        · simp [WritePBToPath, hnew, hs, hw, hsy.1, hsy.2, fsUpdate, hne, tmpPathOf_ne]
        · by_cases hc : b.closeOk = true
          · by_cases hr : b.renameOk = true
            · exfalso
              rcases hfail with hf | hf | hf | hf | hf
              · rw [hs] at hf; cases hf
              · rw [hf] at hw; cases hw
              · exact hsy hf
              · rw [hf] at hc; cases hc
              · rw [hf] at hr; cases hr
            · simp [WritePBToPath, hnew, hs, hw, hsy, hc, hr, fsUpdate, hne, tmpPathOf_ne]
          · simp [WritePBToPath, hnew, hs, hw, hsy, hc, fsUpdate, hne, tmpPathOf_ne]
      · simp [WritePBToPath, hnew, hs, hw, fsUpdate, hne, tmpPathOf_ne]
  · intro b fs path msg sync bytes hnew hs hw hsy hc hr
    have hne : path ≠ tmpPathOf path := Ne.symm (tmpPathOf_ne path)
    have hsy2 : ¬ (sync = SyncMode.SYNC ∧ b.syncOk = false) := by
      rintro ⟨h1, h2⟩
      rw [hsy h1] at h2
      cases h2
    by_cases hsd : sync = SyncMode.SYNC ∧ b.syncDirOk = false
    · have hso : b.syncOk = true := hsy hsd.1
      simp [WritePBToPath, hnew, hs, hw, hsy2, hso, hc, hr, hsd, fsUpdate, hne, tmpPathOf_ne]
    · simp [WritePBToPath, hnew, hs, hw, hsy2, hc, hr, hsd, fsUpdate, hne, tmpPathOf_ne]
  · intro b fs path magic msg sync hnew hfail
    have hne : path ≠ tmpPathOf path := Ne.symm (tmpPathOf_ne path)
    by_cases hi : b.initAppendOk = true
    · rcases hs : msg.serialized with _ | bytes
      · have hA := Append_err_of_none hs (WritablePBContainerFile.Init magic [])
        simp [WritePBContainerToPath, hnew, hi, hA, fsUpdate, hne, tmpPathOf_ne]
      · obtain ⟨content, hA⟩ :=
          Append_ok_of_some hs (WritablePBContainerFile.Init magic [])
        by_cases hd : b.dataAppendOk = true
        · by_cases hsy : sync = SyncMode.SYNC ∧ b.syncOk = false
          · simp [WritePBContainerToPath, hnew, hi, hA, hd, hsy.1, hsy.2,
              fsUpdate, hne, tmpPathOf_ne]
          · by_cases hc : b.closeOk = true
            · by_cases hr : b.renameOk = true
              · exfalso
                rcases hfail with hf | hf | hf | hf | hf | hf
                · rw [hf] at hi; cases hi
                · rw [hs] at hf; cases hf
                · rw [hf] at hd; cases hd
                · exact hsy hf
                · rw [hf] at hc; cases hc
                · rw [hf] at hr; cases hr
              · simp [WritePBContainerToPath, hnew, hi, hA, hd, hsy, hc, hr,
                  fsUpdate, hne, tmpPathOf_ne]
            · simp [WritePBContainerToPath, hnew, hi, hA, hd, hsy, hc,
                fsUpdate, hne, tmpPathOf_ne]
        · simp [WritePBContainerToPath, hnew, hi, hA, hd, fsUpdate, hne, tmpPathOf_ne]
    · simp [WritePBContainerToPath, hnew, hi, fsUpdate, hne, tmpPathOf_ne]
  · intro b fs path magic msg sync bytes hnew hi hs hd hsy hc hr
    have hne : path ≠ tmpPathOf path := Ne.symm (tmpPathOf_ne path)
    obtain ⟨content, hA⟩ :=
      Append_ok_of_some hs (WritablePBContainerFile.Init magic [])
    refine ⟨content, hA, ?_⟩
    have hsy2 : ¬ (sync = SyncMode.SYNC ∧ b.syncOk = false) := by
      rintro ⟨h1, h2⟩
      rw [hsy h1] at h2
      cases h2
    by_cases hsd : sync = SyncMode.SYNC ∧ b.syncDirOk = false
    · have hso : b.syncOk = true := hsy hsd.1
      simp [WritePBContainerToPath, hnew, hi, hA, hd, hsy2, hso, hc, hr, hsd,
        fsUpdate, hne, tmpPathOf_ne]
    · simp [WritePBContainerToPath, hnew, hi, hA, hd, hsy2, hc, hr, hsd,
        fsUpdate, hne, tmpPathOf_ne]

/-- C7 witness: a failing rename fires the deleter and leaves the target
untouched; a fully successful synced write cancels the deleter and
publishes the content. -/
theorem path_write_atomic_cleanup_witness :
    ((WritePBToPath ⟨true, true, true, true, true, true, false, true⟩
        (fun _ => none) "p" ⟨1, 1, some [7], true⟩ SyncMode.SYNC).deleterFired = true
      ∧ (WritePBToPath ⟨true, true, true, true, true, true, false, true⟩
        (fun _ => none) "p" ⟨1, 1, some [7], true⟩ SyncMode.SYNC).fs (tmpPathOf "p") = none
      ∧ (WritePBToPath ⟨true, true, true, true, true, true, false, true⟩
        (fun _ => none) "p" ⟨1, 1, some [7], true⟩ SyncMode.SYNC).fs "p" =
        (fun _ => none : FS) "p")
    ∧ ((WritePBToPath ⟨true, true, true, true, true, true, true, true⟩
        (fun _ => none) "p" ⟨1, 1, some [7], true⟩ SyncMode.SYNC).deleterFired = false
      ∧ (WritePBToPath ⟨true, true, true, true, true, true, true, true⟩
        (fun _ => none) "p" ⟨1, 1, some [7], true⟩ SyncMode.SYNC).fs (tmpPathOf "p") = none
      ∧ (WritePBToPath ⟨true, true, true, true, true, true, true, true⟩
        (fun _ => none) "p" ⟨1, 1, some [7], true⟩ SyncMode.SYNC).fs "p" = some [7]) :=
  ⟨path_write_atomic_cleanup.1 ⟨true, true, true, true, true, true, false, true⟩
      (fun _ => none) "p" ⟨1, 1, some [7], true⟩ SyncMode.SYNC rfl
      (Or.inr (Or.inr (Or.inr (Or.inr rfl)))),
   path_write_atomic_cleanup.2.1 ⟨true, true, true, true, true, true, true, true⟩
      (fun _ => none) "p" ⟨1, 1, some [7], true⟩ SyncMode.SYNC [7] rfl rfl rfl
      (fun _ => rfl) rfl rfl⟩

end Kudu
